import Mathlib

/-!
Verification of the decision-resolution core of the
`claude-code-permission-hook` repository (`cc-approve`).

The embedding follows `src/src/permission-handler.ts` (the second,
current version in that file, which includes the policy version guard
`ensurePromptUpToDate`) and the CLI `permission` command and zod schemas
from `src/unnamed/part_000`.  Modules of the repository that are absent
from `src/` (`fast-decisions.ts`, `cache.ts`, `config.ts`,
`llm-client.ts`, `logger.ts`, `project.ts`, and the current `types.ts`
holding `CURRENT_SYSTEM_PROMPT_VERSION`) are represented either as
oracle functions carried by an `Env` record or as definitions modelled
from the specification, each marked as such in its doc comment.
Effectful calls (config load/save, cache read/write/clear, LLM query,
audit log) are recorded as an explicit event trace.
-/

namespace CcApprove

/-- JSON values, the shape of data read from standard input and of the
untyped `tool_input` payload (`Record<string, unknown>` in the source).
Numbers are modelled as integers; no claim depends on float values. -/
inductive Json where
  | null : Json
  | bool (b : Bool) : Json
  | num (n : Int) : Json
  | str (s : String) : Json
  | arr (xs : List Json) : Json
  | obj (fields : List (String × Json)) : Json

/-- Property access `value.k` on a parsed JSON value: `none` models the
JavaScript `undefined` (missing field, or access on a non-object). -/
def jsGet : Json → String → Option Json
  | .obj fields, k => fields.lookup k
  | _, _ => none

/-- JavaScript truthiness of a possibly-undefined JSON value, as used by
the source's `if (!toolName)` and `... || {}` tests. -/
def jsTruthy : Option Json → Bool
  | none => false
  | some .null => false
  | some (.bool b) => b
  | some (.num n) => n != 0
  | some (.str s) => s != ""
  | some (.arr _) => true
  | some (.obj _) => true

/-- The source's `s || d` on an optional string: the default is used when
the value is absent or the empty string (both falsy in JavaScript). -/
def jsOr (s : Option String) (d : String) : String :=
  match s with
  | some v => if v = "" then d else v
  | none => d

/-- A tool input payload: an order-preserving string-keyed record,
`Record<string, unknown>` in the source. -/
def ToolInput := List (String × Json)

mutual

/-- Canonical serialization of a JSON value, used by the cache-key digest. -/
def jsonSerialize : Json → String
  | .null => "null"
  | .bool true => "true"
  | .bool false => "false"
  | .num n => toString n
  | .str s => "\"" ++ s ++ "\""
  | .arr xs => "[" ++ serializeElems xs ++ "]"
  | .obj fields => "\x7b" ++ serializeFields fields ++ "\x7d"

/-- Serialize the elements of a JSON array, comma separated. -/
def serializeElems : List Json → String
  | [] => ""
  | [x] => jsonSerialize x
  | x :: y :: xs => jsonSerialize x ++ "," ++ serializeElems (y :: xs)

/-- Serialize the fields of a JSON object, comma separated. -/
def serializeFields : List (String × Json) → String
  | [] => ""
  | (k, v) :: fields =>
      "\"" ++ k ++ "\":" ++ jsonSerialize v ++
        (if fields.isEmpty then "" else ",") ++ serializeFields fields

end

/-- The three-valued terminal decision of one resolution. -/
inductive Decision where
  | allow
  | deny
  | passthrough
deriving DecidableEq, Repr

/-- An allow/deny-only decision: the `behavior` enum of the
`PermissionDecisionSchema`, the `decision` enum of `CacheEntrySchema`
and of `LLMResponseSchema`. -/
inductive AllowDeny where
  | allow
  | deny
deriving DecidableEq, Repr

/-- Inclusion of the allow/deny decisions into the three-valued ones. -/
def AllowDeny.toDecision : AllowDeny → Decision
  | .allow => .allow
  | .deny => .deny

/-- Classification produced by the fast tier (`checkFastDecision`). -/
inductive FastDecision where
  | allow
  | deny
  | passthrough
  | unknown
deriving DecidableEq, Repr

/-- Result of `checkFastDecision`: a classification and an optional
reason (the source reads `fastResult.reason || <default>`). -/
structure FastResult where
  decision : FastDecision
  reason : Option String
deriving DecidableEq, Repr

/-- Result of `queryLLM` as seen by the resolver: the LLM client
resolves every failure to a deny internally, so its boundary always
yields an allow/deny decision and a reason (`LLMResponseSchema`). -/
structure LLMResponse where
  decision : AllowDeny
  reason : String
deriving DecidableEq, Repr

/-- The tier that produced a decision, as recorded in audit log entries
(`decisionSource` of `LogEntrySchema`). -/
inductive DecisionSource where
  | fast
  | cache
  | llm
deriving DecidableEq, Repr

/-- `llm` section of the config document (`ConfigSchema` in
`src/unnamed/part_000`).  The fields `systemPromptVersion` is modelled
from the spec: the current `types.ts` is absent from `src/`; per the
spec the policy version is a monotonic integer stored next to the
system prompt. -/
structure LLMSettings where
  provider : String
  apiKey : Option String
  model : String
  baseUrl : Option String
  systemPrompt : String
  systemPromptVersion : Nat
deriving DecidableEq, Repr

/-- `cache` section of the config document. -/
structure CacheSettings where
  enabled : Bool
  ttlHours : Nat
deriving DecidableEq, Repr

/-- `logging` section of the config document. -/
structure LoggingSettings where
  enabled : Bool
  level : String
deriving DecidableEq, Repr

/-- The config document (`ConfigSchema`).  `autoUpdateSystemPrompt` is
read by `ensurePromptUpToDate` in the current `permission-handler.ts`;
its schema declaration lives in the `types.ts` version absent from
`src/`. -/
structure Config where
  llm : LLMSettings
  cache : CacheSettings
  logging : LoggingSettings
  autoUpdateSystemPrompt : Bool
  customAllowPatterns : List String
  customDenyPatterns : List String
  customPassthroughPatterns : List String
deriving DecidableEq, Repr

/-- One persisted cached decision (`CacheEntrySchema`). -/
structure CacheEntry where
  key : String
  decision : AllowDeny
  reason : String
  timestamp : Nat
  toolName : String
  toolInput : Option ToolInput
  projectRoot : Option String

/-- The persisted cache document: a mapping from cache key to entry
(`CacheFileSchema`), modelled as an association list. -/
def CacheStore := List (String × CacheEntry)

/-- Injective encoding of the optional project root scoping a cache
key. -/
def rootTag : Option String → String
  | none => "-"
  | some p => "+" ++ p

/-- Modelled from the spec: `cache.ts` is absent from `src/`.  The cache
key is "a deterministic digest of (toolName, canonicalized toolInput,
projectRoot)" whose invariant is that equal inputs under equal scoping
give equal keys and differing project roots give differing keys; it is
modelled as an injective serialization rather than a SHA256 digest. -/
def cacheKey (toolName : String) (toolInput : ToolInput) (projectRoot : Option String) : String :=
  (toolName ++ "|" ++ serializeFields toolInput ++ "|") ++ rootTag projectRoot

/-- Modelled from the spec: `cache.ts` is absent from `src/`.  Per §4.3,
`get` returns the entry stored at the request's key when
`now - timestamp <= ttlHours * 3600`, and a miss otherwise. -/
def getCachedDecision (now ttlHours : Nat) (cache : CacheStore)
    (toolName : String) (toolInput : ToolInput) (projectRoot : Option String) :
    Option CacheEntry :=
  match List.lookup (cacheKey toolName toolInput projectRoot) cache with
  | some entry => if now - entry.timestamp ≤ ttlHours * 3600 then some entry else none
  | none => none

/-- Modelled from the spec: `cache.ts` is absent from `src/`.  Per §4.3,
`set` stores an entry for the request's key, overwriting any existing
entry at the same key. -/
def setCachedDecision (now : Nat) (cache : CacheStore)
    (toolName : String) (toolInput : ToolInput)
    (decision : AllowDeny) (reason : String) (projectRoot : Option String) :
    CacheStore :=
  let key := cacheKey toolName toolInput projectRoot
  (key, ⟨key, decision, reason, now, toolName, some toolInput, projectRoot⟩) ::
    List.filter (fun kv => kv.1 != key) cache

/-- One audit log record (`LogEntrySchema`, minus the wall-clock
timestamp the logger adds on write). -/
structure LogEntry where
  toolName : String
  decision : Decision
  reason : String
  decisionSource : DecisionSource
  sessionId : Option String
  projectRoot : Option String
deriving DecidableEq, Repr

/-- Observable effects of one resolution, in program order: config I/O
and cache clearing by the policy version guard, cache reads/writes, LLM
calls, and audit log records. -/
inductive Event where
  | loadConfig
  | saveConfig (config : Config)
  | clearCache
  | cacheRead (toolName key : String)
  | llmCall (toolName : String)
  | cacheWrite (key : String) (decision : AllowDeny) (reason : String)
  | log (entry : LogEntry)
deriving DecidableEq, Repr

/-- Whether the trace contains a `getCachedDecision` call. -/
def hasCacheRead : List Event → Bool
  | [] => false
  | .cacheRead _ _ :: _ => true
  | _ :: es => hasCacheRead es

/-- Whether the trace contains a `setCachedDecision` call. -/
def hasCacheWrite : List Event → Bool
  | [] => false
  | .cacheWrite _ _ _ :: _ => true
  | _ :: es => hasCacheWrite es

/-- Whether the trace contains a `queryLLM` call. -/
def hasLLMCall : List Event → Bool
  | [] => false
  | .llmCall _ :: _ => true
  | _ :: es => hasLLMCall es

/-- The audit log records of a trace, in order. -/
def eventsLogs : List Event → List LogEntry
  | [] => []
  | .log entry :: es => entry :: eventsLogs es
  | _ :: es => eventsLogs es

/-- The per-process environment: the oracle behavior of the modules
absent from `src/` (`checkFastDecision` from `fast-decisions.ts`,
`queryLLM` from `llm-client.ts`, `resolveProjectRoot` from
`project.ts`), the clock, and the compiled-in constants
`CURRENT_SYSTEM_PROMPT_VERSION` and `DEFAULT_SYSTEM_PROMPT` from the
current `types.ts`. -/
structure Env where
  checkFastDecision : String → ToolInput → FastResult
  queryLLM : String → ToolInput → Option String → LLMResponse
  resolveProjectRoot : String → Option String
  now : Nat
  currentSystemPromptVersion : Nat
  defaultSystemPrompt : String

/-- Mutable state visible to one `cc-approve` process: the module-level
`promptUpgradeChecked` flag, and the persisted config and cache
documents. -/
structure PermState where
  promptUpgradeChecked : Bool
  config : Config
  cache : CacheStore

/-- The config rewrite performed by a stale-prompt upgrade: overwrite
the system prompt and version with the compiled-in current ones. -/
def upgradeConfig (env : Env) (c : Config) : Config :=
  { c with
    llm := { c.llm with
             systemPrompt := env.defaultSystemPrompt,
             systemPromptVersion := env.currentSystemPromptVersion } }

/-- `ensurePromptUpToDate` from `permission-handler.ts`: on the first
call in a process, load the config and, when auto-update is on and the
stored policy version is older than the compiled-in one, overwrite the
system prompt and version (`upgradeConfig`), save the config and clear
the cache.  Later calls return immediately. -/
def ensurePromptUpToDate (env : Env) (st : PermState) : PermState × List Event :=
  if st.promptUpgradeChecked then (st, [])
  else if st.config.autoUpdateSystemPrompt = true ∧
      st.config.llm.systemPromptVersion < env.currentSystemPromptVersion then
    ({ promptUpgradeChecked := true, config := upgradeConfig env st.config, cache := [] },
      [.loadConfig, .saveConfig (upgradeConfig env st.config), .clearCache])
  else ({ st with promptUpgradeChecked := true }, [.loadConfig])

/-- The terminal outcome of one resolution (`DecisionResult` in the
source). -/
structure DecisionResult where
  decision : Decision
  reason : String
deriving DecidableEq, Repr

/-- A resolution's return value together with the updated process state
and the trace of effects it performed. -/
structure ResolveOut where
  result : DecisionResult
  state : PermState
  events : List Event

/-- The source's `cwd ? resolveProjectRoot(cwd) : undefined`: the
project root is resolved only for a truthy (present, non-empty) working
directory. -/
def projectRootOf (env : Env) (cwd : Option String) : Option String :=
  match cwd with
  | some c => if c = "" then none else env.resolveProjectRoot c
  | none => none

/-- `resolveDecision` from `permission-handler.ts`: run the policy
version guard, then the fast tier; on `unknown`, consult the cache; on
a miss, query the LLM and cache its answer.  Each terminal branch logs
one audit record with its tier. -/
def resolveDecision (env : Env) (st0 : PermState)
    (toolName : String) (toolInput : ToolInput)
    (cwd : Option String) (sessionId : Option String) : ResolveOut :=
  let pu := ensurePromptUpToDate env st0
  let st := pu.1
  let ev0 := pu.2
  let projectRoot := projectRootOf env cwd
  match env.checkFastDecision toolName toolInput with
  | ⟨FastDecision.allow, rs⟩ =>
      ⟨⟨.allow, jsOr rs "Fast allow"⟩, st,
        ev0 ++ [.log ⟨toolName, .allow, jsOr rs "Fast allow", .fast, sessionId, projectRoot⟩]⟩
  | ⟨FastDecision.deny, rs⟩ =>
      ⟨⟨.deny, jsOr rs "Blocked by security pattern"⟩, st,
        ev0 ++ [.log ⟨toolName, .deny, jsOr rs "Fast deny", .fast, sessionId, projectRoot⟩]⟩
  | ⟨FastDecision.passthrough, rs⟩ =>
      ⟨⟨.passthrough, jsOr rs "Fast passthrough"⟩, st,
        ev0 ++ [.log ⟨toolName, .passthrough, jsOr rs "Fast passthrough", .fast, sessionId, projectRoot⟩]⟩
  | ⟨FastDecision.unknown, _⟩ =>
      let key := cacheKey toolName toolInput projectRoot
      match getCachedDecision env.now st.config.cache.ttlHours st.cache toolName toolInput projectRoot with
      | some entry =>
          ⟨⟨entry.decision.toDecision, entry.reason⟩, st,
            ev0 ++ [.cacheRead toolName key,
              .log ⟨toolName, entry.decision.toDecision, "Cached: " ++ entry.reason, .cache, sessionId, projectRoot⟩]⟩
      | none =>
          let llmResult := env.queryLLM toolName toolInput projectRoot
          ⟨⟨llmResult.decision.toDecision, llmResult.reason⟩,
            { st with cache := setCachedDecision env.now st.cache toolName toolInput
                                llmResult.decision llmResult.reason projectRoot },
            ev0 ++ [.cacheRead toolName key, .llmCall toolName,
              .cacheWrite key llmResult.decision llmResult.reason,
              .log ⟨toolName, llmResult.decision.toDecision, llmResult.reason, .llm, sessionId, projectRoot⟩]⟩

/-- The parsed permission request (`PermissionRequestInputSchema`).  The
`hook_event_name` literal is checked by the parser and not retained. -/
structure PermissionRequestInput where
  tool_name : String
  tool_input : ToolInput
  transcript : Option (List Json)
  session_id : Option String
  cwd : Option String

/-- An optional string field per zod: absent is fine, a string is fine,
any other present value fails the parse (`none` result). -/
def optStrField (j : Json) (k : String) : Option (Option String) :=
  match jsGet j k with
  | none => some none
  | some (.str s) => some (some s)
  | some _ => none

/-- The optional `transcript` field per zod: absent is fine, an array is
fine, any other present value fails the parse. -/
def optArrField (j : Json) (k : String) : Option (Option (List Json)) :=
  match jsGet j k with
  | none => some none
  | some (.arr xs) => some (some xs)
  | some _ => none

/-- `PermissionRequestInputSchema.parse`: requires the literal
`hook_event_name`, a string `tool_name`, an object `tool_input`, and
well-typed optional `transcript`, `session_id` and `cwd`.  `none`
models a thrown `ZodError`. -/
def parsePermissionRequestInput (j : Json) : Option PermissionRequestInput :=
  match jsGet j "hook_event_name", jsGet j "tool_name", jsGet j "tool_input" with
  | some (.str ev), some (.str tn), some (.obj ti) =>
      if ev = "PermissionRequest" then
        match optArrField j "transcript", optStrField j "session_id", optStrField j "cwd" with
        | some tr, some sid, some cwd => some ⟨tn, ti, tr, sid, cwd⟩
        | _, _, _ => none
      else none
  | _, _, _ => none

/-- The `decision` object of a `PermissionRequest` hook response
(`PermissionDecisionSchema`; `updatedInput` is never produced by this
program and is omitted). -/
structure PermissionDecision where
  behavior : AllowDeny
  message : Option String
deriving DecidableEq, Repr

/-- The `hookSpecificOutput` object of a `PermissionRequest` response. -/
structure PermissionRequestHookOutput where
  hookEventName : String
  decision : PermissionDecision
deriving DecidableEq, Repr

/-- A `PermissionRequest` hook response (`PermissionRequestOutputSchema`). -/
structure PermissionRequestOutput where
  hookSpecificOutput : PermissionRequestHookOutput
deriving DecidableEq, Repr

/-- `createPermissionAllowResponse` from `permission-handler.ts`. -/
def createPermissionAllowResponse : PermissionRequestOutput :=
  ⟨⟨"PermissionRequest", ⟨.allow, none⟩⟩⟩

/-- `createPermissionDenyResponse` from `permission-handler.ts`. -/
def createPermissionDenyResponse (message : String) : PermissionRequestOutput :=
  ⟨⟨"PermissionRequest", ⟨.deny, some message⟩⟩⟩

/-- The behavior carried by an optional response: `none` is the
passthrough result. -/
def responseBehavior : Option PermissionRequestOutput → Option AllowDeny
  | none => none
  | some out => some out.hookSpecificOutput.decision.behavior

/-- `handlePermissionRequest` from `permission-handler.ts`: deny on a
failed schema parse, otherwise resolve and map the decision to a
response (`none` for passthrough).  Paired with the state and trace of
the resolution it performed. -/
def handlePermissionRequest (env : Env) (st : PermState) (rawInput : Json) :
    Option PermissionRequestOutput × PermState × List Event :=
  match parsePermissionRequestInput rawInput with
  | none => (some (createPermissionDenyResponse "Invalid permission request input"), st, [])
  | some input =>
      let r := resolveDecision env st input.tool_name input.tool_input input.cwd input.session_id
      match r.result.decision with
      | .allow => (some createPermissionAllowResponse, r.state, r.events)
      | .deny => (some (createPermissionDenyResponse r.result.reason), r.state, r.events)
      | .passthrough => (none, r.state, r.events)

/-- The `hookSpecificOutput` object of a `PreToolUse` hook response. -/
structure PreToolUseHookOutput where
  hookEventName : String
  permissionDecision : AllowDeny
  permissionDecisionReason : String
deriving DecidableEq, Repr

/-- A `PreToolUse` hook response (`PreToolUseOutput` in the source). -/
structure PreToolUseOutput where
  hookSpecificOutput : PreToolUseHookOutput
deriving DecidableEq, Repr

/-- A string-typed field read through an unchecked cast
(`input.cwd as string | undefined`): a present non-string value is kept
by the source's cast; only string values are representable here, and no
claim exercises a non-string value in these positions. -/
def strField (j : Json) (k : String) : Option String :=
  match jsGet j k with
  | some (.str s) => some s
  | _ => none

/-- The string behind the source's `input.tool_name as string` cast in
the truthy branch; a truthy non-string value is not distinguished. -/
def jsStringValue : Option Json → String
  | some (.str s) => s
  | _ => ""

/-- The source's `(input.tool_input as Record<string, unknown>) || {}`:
a falsy (or non-object) payload becomes the empty record. -/
def jsToToolInput : Option Json → ToolInput
  | some (.obj fields) => fields
  | _ => []

/-- Mapping of a resolution outcome to a `PreToolUse` response triple:
allow/deny become responses, passthrough becomes `none`. -/
def preToolUseOutcome (r : ResolveOut) : Option PreToolUseOutput × PermState × List Event :=
  match r.result.decision with
  | .allow => (some ⟨⟨"PreToolUse", .allow, r.result.reason⟩⟩, r.state, r.events)
  | .deny => (some ⟨⟨"PreToolUse", .deny, r.result.reason⟩⟩, r.state, r.events)
  | .passthrough => (none, r.state, r.events)

/-- `handlePreToolUse` from `permission-handler.ts`: a falsy `tool_name`
is denied with a fixed diagnostic; otherwise the request is resolved
with a falsy `tool_input` replaced by the empty record. -/
def handlePreToolUse (env : Env) (st : PermState) (rawInput : Json) :
    Option PreToolUseOutput × PermState × List Event :=
  if jsTruthy (jsGet rawInput "tool_name") then
    preToolUseOutcome
      (resolveDecision env st
        (jsStringValue (jsGet rawInput "tool_name"))
        (jsToToolInput (jsGet rawInput "tool_input"))
        (strField rawInput "cwd")
        (strField rawInput "session_id"))
  else
    (some ⟨⟨"PreToolUse", .deny, "Invalid PreToolUse input: missing tool_name"⟩⟩, st, [])

/-- Observable outcome of one run of the `permission` CLI command: what
is printed to standard output (nothing for passthrough) and the exit
code. -/
structure CommandResult where
  stdout : Option PermissionRequestOutput
  exitCode : Nat
deriving DecidableEq, Repr

/-- The `try`/`catch` boundary of the `permission` command
(`src/unnamed/part_000`): a passthrough (`null`) exits 0 silently, an
allow/deny response is printed with exit 0, and any fault thrown by the
body is converted to a printed deny response with exit 1. -/
def permissionBoundary (body : Except String (Option PermissionRequestOutput)) : CommandResult :=
  match body with
  | .ok none => ⟨none, 0⟩
  | .ok (some out) => ⟨some out, 0⟩
  | .error msg => ⟨some (createPermissionDenyResponse ("Hook error: " ++ msg)), 1⟩

/-- The error message of a failed body, if any. -/
def exceptErrMsg : Except String (Option PermissionRequestOutput) → Option String
  | .error msg => some msg
  | .ok _ => none

/-- The `permission` command on the outcome of `JSON.parse` over the
bytes read from standard input (`Except.error` models a thrown parse
error, carrying its message). -/
def permissionCommand (env : Env) (st : PermState)
    (stdinParse : Except String Json) : CommandResult :=
  permissionBoundary (stdinParse.map fun j => (handlePermissionRequest env st j).1)

/-! Concrete sample environments and states, used to evaluate the
definitions at specific inputs. -/

/-- An environment with fixed oracle answers for the absent modules. -/
def mkEnv (fast : FastResult) (llm : LLMResponse) : Env :=
  ⟨fun _ _ => fast, fun _ _ _ => llm, fun _ => none, 0, 1, "prompt v1"⟩

/-- Environment whose fast tier always classifies `allow`. -/
def envFastAllow : Env := mkEnv ⟨.allow, none⟩ ⟨.deny, "unused"⟩

/-- Environment whose fast tier always classifies `deny`. -/
def envFastDeny : Env := mkEnv ⟨.deny, some "blocked"⟩ ⟨.deny, "unused"⟩

/-- Environment whose fast tier always classifies `unknown` and whose
LLM allows. -/
def envUnknown : Env := mkEnv ⟨.unknown, none⟩ ⟨.allow, "llm ok"⟩

/-- A config document at policy version 0 with defaults. -/
def sampleConfig : Config :=
  ⟨⟨"openrouter", none, "gpt-4o-mini", none, "old prompt", 0⟩,
   ⟨true, 168⟩, ⟨true, "info"⟩, true, [], [], []⟩

/-- A process state whose policy version guard has already run. -/
def stChecked : PermState := ⟨true, sampleConfig, []⟩

/-- A cached decision for the request `("Bash", {}, no project)`. -/
def sampleEntry : CacheEntry :=
  ⟨cacheKey "Bash" [] none, .allow, "cached ok", 0, "Bash", some [], none⟩

/-- A checked process state whose cache holds `sampleEntry`. -/
def stCached : PermState :=
  ⟨true, sampleConfig, [(cacheKey "Bash" [] none, sampleEntry)]⟩

/-- A fresh process state at stale policy version 0 with auto-update on. -/
def stStale : PermState := ⟨false, sampleConfig, []⟩

/-- A cache entry stored under the literal key `"k"`. -/
def entryK : CacheEntry := ⟨"k", .allow, "r", 0, "Bash", none, none⟩

/-- A fresh process state at stale policy version 0 whose config has
`autoUpdateSystemPrompt` off and whose cache holds `entryK`. -/
def stNoAuto : PermState :=
  ⟨false, { sampleConfig with autoUpdateSystemPrompt := false }, [("k", entryK)]⟩

/-- A well-formed permission request for `("Bash", {})`. -/
def jReq : Json :=
  .obj [("hook_event_name", .str "PermissionRequest"),
        ("tool_name", .str "Bash"),
        ("tool_input", .obj [])]

/-! Helper lemmas. -/

theorem ensure_checked (env : Env) (st : PermState) :
    ((ensurePromptUpToDate env st).1).promptUpgradeChecked = true := by
  unfold ensurePromptUpToDate
  split
  · next h => exact h
  · split <;> rfl

theorem ensure_of_checked (env : Env) (st : PermState)
    (h : st.promptUpgradeChecked = true) :
    ensurePromptUpToDate env st = (st, []) := by
  simp [ensurePromptUpToDate, h]

theorem ensure_tier_silent (env : Env) (st : PermState) :
    hasCacheRead (ensurePromptUpToDate env st).2 = false ∧
    hasCacheWrite (ensurePromptUpToDate env st).2 = false ∧
    hasLLMCall (ensurePromptUpToDate env st).2 = false ∧
    eventsLogs (ensurePromptUpToDate env st).2 = [] := by
  unfold ensurePromptUpToDate
  split
  · simp [hasCacheRead, hasCacheWrite, hasLLMCall, eventsLogs]
  · split <;> simp [hasCacheRead, hasCacheWrite, hasLLMCall, eventsLogs]

theorem hasCacheRead_append (a b : List Event) :
    hasCacheRead (a ++ b) = (hasCacheRead a || hasCacheRead b) := by
  induction a with
  | nil => simp [hasCacheRead]
  | cons e es ih => cases e <;> simp [hasCacheRead, ih]

theorem hasCacheWrite_append (a b : List Event) :
    hasCacheWrite (a ++ b) = (hasCacheWrite a || hasCacheWrite b) := by
  induction a with
  | nil => simp [hasCacheWrite]
  | cons e es ih => cases e <;> simp [hasCacheWrite, ih]

theorem hasLLMCall_append (a b : List Event) :
    hasLLMCall (a ++ b) = (hasLLMCall a || hasLLMCall b) := by
  induction a with
  | nil => simp [hasLLMCall]
  | cons e es ih => cases e <;> simp [hasLLMCall, ih]

theorem eventsLogs_append (a b : List Event) :
    eventsLogs (a ++ b) = eventsLogs a ++ eventsLogs b := by
  induction a with
  | nil => simp [eventsLogs]
  | cons e es ih => cases e <;> simp [eventsLogs, ih]

theorem string_append_cancel_left (s t u : String) (h : s ++ t = s ++ u) : t = u := by
  have hd := congrArg String.data h
  simp only [String.data_append] at hd
  exact String.ext (List.append_cancel_left hd)

theorem rootTag_inj (p1 p2 : Option String)
    (h : rootTag p1 = rootTag p2) : p1 = p2 := by
  cases p1 with
  | none =>
      cases p2 with
      | none => rfl
      | some q =>
          exfalso
          have hd := congrArg String.data h
          simp only [rootTag, String.data_append] at hd
          simp at hd
  | some q1 =>
      cases p2 with
      | none =>
          exfalso
          have hd := congrArg String.data h
          simp only [rootTag, String.data_append] at hd
          simp at hd
      | some q2 =>
          simp only [rootTag] at h
          exact congrArg some (string_append_cancel_left "+" q1 q2 h)

/-- C8: the policy version guard does its config-load/upgrade/cache-clear
work at most once per process: a call made after the first one returns
the state unchanged and performs no I/O (an empty event trace). -/
theorem claimC8 (env : Env) (st : PermState) :
    ensurePromptUpToDate env ((ensurePromptUpToDate env st).1) =
      ((ensurePromptUpToDate env st).1, []) :=
  ensure_of_checked env _ (ensure_checked env st)

/-- C1 (amended): on the first call, when `autoUpdateSystemPrompt` is on
and the stored policy version is strictly below the compiled-in one,
`ensurePromptUpToDate` overwrites the configured system prompt and
version with the current ones, persists the new config (a `saveConfig`
event), and clears the entire decision cache, so any cache lookup
afterwards misses. -/
theorem claimC1_amended (env : Env) (st : PermState)
    (t : String) (i : ToolInput) (p : Option String)
    (h1 : st.promptUpgradeChecked = false)
    (h2 : st.config.autoUpdateSystemPrompt = true)
    (h3 : st.config.llm.systemPromptVersion < env.currentSystemPromptVersion) :
    ((ensurePromptUpToDate env st).1).config.llm.systemPrompt = env.defaultSystemPrompt ∧
    ((ensurePromptUpToDate env st).1).config.llm.systemPromptVersion = env.currentSystemPromptVersion ∧
    (ensurePromptUpToDate env st).2 =
      [Event.loadConfig, Event.saveConfig ((ensurePromptUpToDate env st).1).config, Event.clearCache] ∧
    ((ensurePromptUpToDate env st).1).cache = [] ∧
    getCachedDecision env.now ((ensurePromptUpToDate env st).1).config.cache.ttlHours
      ((ensurePromptUpToDate env st).1).cache t i p = none := by
  simp [ensurePromptUpToDate, upgradeConfig, h1, h2, h3, getCachedDecision]

/-- C1 witness: a concrete stale state with auto-update on, upgraded and
flushed by the first guard call. -/
theorem claimC1_witness :
    ((ensurePromptUpToDate envUnknown stStale).1).config.llm.systemPromptVersion =
      envUnknown.currentSystemPromptVersion ∧
    ((ensurePromptUpToDate envUnknown stStale).1).cache = [] :=
  ⟨(claimC1_amended envUnknown stStale "Bash" [] none rfl rfl (by decide)).2.1,
   (claimC1_amended envUnknown stStale "Bash" [] none rfl rfl (by decide)).2.2.2.1⟩

/-- C1 counterexample: a first-call state whose stored policy version 0
is strictly below the compiled-in version 1 but whose config has
`autoUpdateSystemPrompt` off: the guard leaves the config at version 0,
does not persist anything, and leaves the cached entry `entryK` in
place — the claim's unconditional overwrite-and-clear does not hold. -/
theorem claimC1_counterexample :
    stNoAuto.promptUpgradeChecked = false ∧
    stNoAuto.config.llm.systemPromptVersion < envUnknown.currentSystemPromptVersion ∧
    ((ensurePromptUpToDate envUnknown stNoAuto).1).cache = [("k", entryK)] ∧
    ((ensurePromptUpToDate envUnknown stNoAuto).1).config.llm.systemPromptVersion = 0 ∧
    (ensurePromptUpToDate envUnknown stNoAuto).2 = [Event.loadConfig] :=
  ⟨rfl, by decide, rfl, rfl, rfl⟩

/-- C9: the cache key is deterministic — repeated computations on equal
inputs under equal scoping give equal keys — and project-scoped:
otherwise-identical requests under different project roots give
different keys. -/
theorem claimC9 (t : String) (i : ToolInput) (p p1 p2 : Option String)
    (h : p1 ≠ p2) :
    cacheKey t i p = cacheKey t i p ∧ cacheKey t i p1 ≠ cacheKey t i p2 := by
  refine ⟨rfl, fun he => h ?_⟩
  exact rootTag_inj p1 p2
    (string_append_cancel_left (t ++ "|" ++ serializeFields i ++ "|") _ _ he)

/-- C9 witness: two concrete project roots yield distinct keys for the
same request. -/
theorem claimC9_witness :
    cacheKey "Bash" [] (some "/a") = cacheKey "Bash" [] (some "/a") ∧
    cacheKey "Bash" [] (some "/a") ≠ cacheKey "Bash" [] (some "/b") :=
  claimC9 "Bash" [] (some "/a") (some "/a") (some "/b") (by decide)

/-- C2: when the fast tier classifies allow, deny or passthrough,
`resolveDecision` returns that decision, logs exactly one record with
source `fast`, and performs no cache read, no cache write and no LLM
call. -/
theorem claimC2 (env : Env) (st : PermState)
    (t : String) (i : ToolInput) (cwd sessionId : Option String)
    (h : (env.checkFastDecision t i).decision ≠ FastDecision.unknown) :
    ((env.checkFastDecision t i).decision = FastDecision.allow →
      (resolveDecision env st t i cwd sessionId).result.decision = Decision.allow) ∧
    ((env.checkFastDecision t i).decision = FastDecision.deny →
      (resolveDecision env st t i cwd sessionId).result.decision = Decision.deny) ∧
    ((env.checkFastDecision t i).decision = FastDecision.passthrough →
      (resolveDecision env st t i cwd sessionId).result.decision = Decision.passthrough) ∧
    (eventsLogs (resolveDecision env st t i cwd sessionId).events).map
      LogEntry.decisionSource = [DecisionSource.fast] ∧
    hasCacheRead (resolveDecision env st t i cwd sessionId).events = false ∧
    hasCacheWrite (resolveDecision env st t i cwd sessionId).events = false ∧
    hasLLMCall (resolveDecision env st t i cwd sessionId).events = false := by
  obtain ⟨r1, r2, r3, r4⟩ := ensure_tier_silent env st
  rcases hfa : env.checkFastDecision t i with ⟨fd, rs⟩
  rw [hfa] at h
  cases fd with
  | unknown => simp at h
  | allow =>
      simp [resolveDecision, hfa, eventsLogs_append, hasCacheRead_append,
        hasCacheWrite_append, hasLLMCall_append, r1, r2, r3, r4,
        eventsLogs, hasCacheRead, hasCacheWrite, hasLLMCall]
  | deny =>
      simp [resolveDecision, hfa, eventsLogs_append, hasCacheRead_append,
        hasCacheWrite_append, hasLLMCall_append, r1, r2, r3, r4,
        eventsLogs, hasCacheRead, hasCacheWrite, hasLLMCall]
  | passthrough =>
      simp [resolveDecision, hfa, eventsLogs_append, hasCacheRead_append,
        hasCacheWrite_append, hasLLMCall_append, r1, r2, r3, r4,
        eventsLogs, hasCacheRead, hasCacheWrite, hasLLMCall]

/-- C2 witness: a fast-allow environment resolves to allow. -/
theorem claimC2_witness :
    (resolveDecision envFastAllow stChecked "Read" [] none none).result.decision =
      Decision.allow :=
  (claimC2 envFastAllow stChecked "Read" [] none none (by decide)).1 rfl

/-- C3: when the fast tier classifies unknown and the cache lookup
returns a (fresh) entry, `resolveDecision` returns that entry's
decision and reason, logs exactly one record with source `cache`,
performs no LLM call and no cache write, and leaves the state as the
policy version guard left it. -/
theorem claimC3 (env : Env) (st : PermState)
    (t : String) (i : ToolInput) (cwd sessionId : Option String)
    (entry : CacheEntry)
    (hfd : (env.checkFastDecision t i).decision = FastDecision.unknown)
    (hhit : getCachedDecision env.now
        ((ensurePromptUpToDate env st).1).config.cache.ttlHours
        ((ensurePromptUpToDate env st).1).cache t i (projectRootOf env cwd) = some entry) :
    (resolveDecision env st t i cwd sessionId).result =
      ⟨entry.decision.toDecision, entry.reason⟩ ∧
    (eventsLogs (resolveDecision env st t i cwd sessionId).events).map
      LogEntry.decisionSource = [DecisionSource.cache] ∧
    hasLLMCall (resolveDecision env st t i cwd sessionId).events = false ∧
    hasCacheWrite (resolveDecision env st t i cwd sessionId).events = false ∧
    (resolveDecision env st t i cwd sessionId).state = (ensurePromptUpToDate env st).1 := by
  obtain ⟨r1, r2, r3, r4⟩ := ensure_tier_silent env st
  rcases hfa : env.checkFastDecision t i with ⟨fd, rs⟩
  rw [hfa] at hfd
  simp only [] at hfd
  subst hfd
  simp [resolveDecision, hfa, hhit, eventsLogs_append, hasCacheWrite_append,
    hasLLMCall_append, r2, r3, r4, eventsLogs, hasCacheWrite, hasLLMCall]

/-- C3 witness: with the fast tier unknown and `sampleEntry` fresh in
the cache, resolution returns the cached allow decision and reason. -/
theorem claimC3_witness :
    (resolveDecision envUnknown stCached "Bash" [] none none).result =
      ⟨AllowDeny.toDecision sampleEntry.decision, sampleEntry.reason⟩ :=
  (claimC3 envUnknown stCached "Bash" [] none none sampleEntry rfl rfl).1

/-- C4: `resolveDecision` writes a cache entry exactly when the LLM tier
is reached: a cache write event occurs in a trace precisely when an LLM
call does, and whenever the LLM was queried its allow/deny result and
reason are returned (logged with source `llm`), recorded as a cache
write, and stored in the resulting cache under the request's key. -/
theorem claimC4 (env : Env) (st : PermState)
    (t : String) (i : ToolInput) (cwd sessionId : Option String) :
    hasCacheWrite (resolveDecision env st t i cwd sessionId).events =
      hasLLMCall (resolveDecision env st t i cwd sessionId).events ∧
    (hasLLMCall (resolveDecision env st t i cwd sessionId).events = true →
      (resolveDecision env st t i cwd sessionId).result =
        ⟨(env.queryLLM t i (projectRootOf env cwd)).decision.toDecision,
         (env.queryLLM t i (projectRootOf env cwd)).reason⟩ ∧
      Event.cacheWrite (cacheKey t i (projectRootOf env cwd))
          (env.queryLLM t i (projectRootOf env cwd)).decision
          (env.queryLLM t i (projectRootOf env cwd)).reason ∈
        (resolveDecision env st t i cwd sessionId).events ∧
      (eventsLogs (resolveDecision env st t i cwd sessionId).events).map
        LogEntry.decisionSource = [DecisionSource.llm] ∧
      List.lookup (cacheKey t i (projectRootOf env cwd))
          (resolveDecision env st t i cwd sessionId).state.cache =
        some ⟨cacheKey t i (projectRootOf env cwd),
              (env.queryLLM t i (projectRootOf env cwd)).decision,
              (env.queryLLM t i (projectRootOf env cwd)).reason,
              env.now, t, some i, projectRootOf env cwd⟩) := by
  obtain ⟨r1, r2, r3, r4⟩ := ensure_tier_silent env st
  rcases hfa : env.checkFastDecision t i with ⟨fd, rs⟩
  cases fd with
  | unknown =>
      rcases hc : getCachedDecision env.now
          ((ensurePromptUpToDate env st).1).config.cache.ttlHours
          ((ensurePromptUpToDate env st).1).cache t i (projectRootOf env cwd) with _ | entry
      · simp [resolveDecision, hfa, hc, setCachedDecision, eventsLogs_append,
          hasCacheWrite_append, hasLLMCall_append, r2, r3, r4,
          eventsLogs, hasCacheWrite, hasLLMCall, List.lookup]
      · simp [resolveDecision, hfa, hc, eventsLogs_append, hasCacheWrite_append,
          hasLLMCall_append, r2, r3, r4, eventsLogs, hasCacheWrite, hasLLMCall]
  | allow =>
      simp [resolveDecision, hfa, hasCacheWrite_append, hasLLMCall_append,
        r2, r3, hasCacheWrite, hasLLMCall]
  | deny =>
      simp [resolveDecision, hfa, hasCacheWrite_append, hasLLMCall_append,
        r2, r3, hasCacheWrite, hasLLMCall]
  | passthrough =>
      simp [resolveDecision, hfa, hasCacheWrite_append, hasLLMCall_append,
        r2, r3, hasCacheWrite, hasLLMCall]

/-- C4 witness: with the fast tier unknown and an empty cache, the LLM
tier is reached and its result is returned. -/
theorem claimC4_witness :
    (resolveDecision envUnknown stChecked "Bash" [] none none).result =
      ⟨AllowDeny.toDecision (envUnknown.queryLLM "Bash" [] (projectRootOf envUnknown none)).decision,
       (envUnknown.queryLLM "Bash" [] (projectRootOf envUnknown none)).reason⟩ :=
  ((claimC4 envUnknown stChecked "Bash" [] none none).2 rfl).1

theorem handlePermissionRequest_invalid (env : Env) (st : PermState) (raw : Json)
    (h : parsePermissionRequestInput raw = none) :
    handlePermissionRequest env st raw =
      (some (createPermissionDenyResponse "Invalid permission request input"), st, []) := by
  simp [handlePermissionRequest, h]

/-- C5: a raw input that fails the permission-request schema parse makes
`handlePermissionRequest` return a deny response carrying a diagnostic
message — never an allow response and never the passthrough `none`. -/
theorem claimC5 (env : Env) (st : PermState) (raw : Json)
    (h : parsePermissionRequestInput raw = none) :
    (handlePermissionRequest env st raw).1 =
      some (createPermissionDenyResponse "Invalid permission request input") ∧
    responseBehavior (handlePermissionRequest env st raw).1 = some AllowDeny.deny ∧
    (createPermissionDenyResponse "Invalid permission request input").hookSpecificOutput.decision.message =
      some "Invalid permission request input" := by
  rw [handlePermissionRequest_invalid env st raw h]
  exact ⟨rfl, rfl, rfl⟩

/-- C5 witness: the empty JSON object fails the schema parse and is
denied. -/
theorem claimC5_witness :
    (handlePermissionRequest envUnknown stChecked (Json.obj [])).1 =
      some (createPermissionDenyResponse "Invalid permission request input") :=
  (claimC5 envUnknown stChecked (Json.obj []) rfl).1

/-- C7: the `permission` command's top boundary never ends a run without
a response or the defined passthrough silence: a silent run exits 0 and
arises only from a passthrough, any fault thrown by the pipeline is
converted into a printed well-formed deny response (exit 1), and every
printed response carries an allow or a deny behavior. -/
theorem claimC7 (body : Except String (Option PermissionRequestOutput)) (m : String) :
    ((permissionBoundary body).stdout = none →
      (permissionBoundary body).exitCode = 0 ∧ body = Except.ok none) ∧
    (exceptErrMsg body = some m →
      (permissionBoundary body).stdout =
        some (createPermissionDenyResponse ("Hook error: " ++ m)) ∧
      responseBehavior (permissionBoundary body).stdout = some AllowDeny.deny ∧
      (permissionBoundary body).exitCode = 1) ∧
    (responseBehavior (permissionBoundary body).stdout = some AllowDeny.allow ∨
     responseBehavior (permissionBoundary body).stdout = some AllowDeny.deny ∨
     ((permissionBoundary body).stdout = none ∧ (permissionBoundary body).exitCode = 0)) := by
  cases body with
  | ok out0 =>
      cases out0 with
      | none =>
          refine ⟨fun _ => ⟨rfl, rfl⟩, ?_, ?_⟩
          · intro h; simp [exceptErrMsg] at h
          · exact Or.inr (Or.inr ⟨rfl, rfl⟩)
      | some out =>
          refine ⟨?_, ?_, ?_⟩
          · intro h; simp [permissionBoundary] at h
          · intro h; simp [exceptErrMsg] at h
          · cases hb : out.hookSpecificOutput.decision.behavior with
            | allow => exact Or.inl (by simp [permissionBoundary, responseBehavior, hb])
            | deny => exact Or.inr (Or.inl (by simp [permissionBoundary, responseBehavior, hb]))
  | error msg0 =>
      refine ⟨?_, ?_, ?_⟩
      · intro h; simp [permissionBoundary] at h
      · intro h
        simp [exceptErrMsg] at h
        subst h
        exact ⟨rfl, rfl, rfl⟩
      · exact Or.inr (Or.inl rfl)

/-- C7 witness: a thrown fault with message `boom` is converted into a
printed deny response. -/
theorem claimC7_witness :
    (permissionBoundary (Except.error "boom")).stdout =
      some (createPermissionDenyResponse ("Hook error: " ++ "boom")) :=
  ((claimC7 (Except.error "boom") "boom").2.1 rfl).1

/-- C6 (amended): the `permission` command exits non-zero (printing a
deny) only when reading or parsing standard input throws, e.g. on
unparseable JSON; input that is valid JSON but fails the request schema
is denied with exit code 0, and a deny resolved for a well-formed
request also exits 0. -/
theorem claimC6_amended (env : Env) (st : PermState) (msg : String)
    (jBad jReq0 : Json) (input : PermissionRequestInput)
    (hBad : parsePermissionRequestInput jBad = none)
    (hReq : parsePermissionRequestInput jReq0 = some input)
    (hDeny : (resolveDecision env st input.tool_name input.tool_input
                input.cwd input.session_id).result.decision = Decision.deny) :
    permissionCommand env st (Except.error msg) =
      ⟨some (createPermissionDenyResponse ("Hook error: " ++ msg)), 1⟩ ∧
    permissionCommand env st (Except.ok jBad) =
      ⟨some (createPermissionDenyResponse "Invalid permission request input"), 0⟩ ∧
    permissionCommand env st (Except.ok jReq0) =
      ⟨some (createPermissionDenyResponse
        (resolveDecision env st input.tool_name input.tool_input
          input.cwd input.session_id).result.reason), 0⟩ := by
  refine ⟨rfl, ?_, ?_⟩
  · simp [permissionCommand, permissionBoundary, Except.map,
      handlePermissionRequest_invalid env st jBad hBad]
  · rcases hres : resolveDecision env st input.tool_name input.tool_input
        input.cwd input.session_id with ⟨⟨d, dr⟩, st2, evs⟩
    rw [hres] at hDeny
    simp only [] at hDeny
    subst hDeny
    simp [permissionCommand, permissionBoundary, Except.map,
      handlePermissionRequest, hReq, hres]

/-- C6 witness: a thrown stdin parse exits 1 with a deny response. -/
theorem claimC6_witness :
    permissionCommand envFastDeny stChecked (Except.error "boom") =
      ⟨some (createPermissionDenyResponse ("Hook error: " ++ "boom")), 1⟩ :=
  (claimC6_amended envFastDeny stChecked "boom" (Json.obj []) jReq
    ⟨"Bash", [], none, none, none⟩ rfl rfl rfl).1

/-- C6 counterexample: the empty JSON object is valid JSON that fails
the request schema; the command prints a deny response but exits with
code 0, not non-zero as the claim states. -/
theorem claimC6_counterexample :
    parsePermissionRequestInput (Json.obj []) = none ∧
    (permissionCommand envUnknown stChecked (Except.ok (Json.obj []))).stdout =
      some (createPermissionDenyResponse "Invalid permission request input") ∧
    (permissionCommand envUnknown stChecked (Except.ok (Json.obj []))).exitCode = 0 :=
  ⟨rfl, rfl, rfl⟩

theorem jsToToolInput_falsy (v : Option Json) (h : jsTruthy v = false) :
    jsToToolInput v = [] := by
  cases v with
  | none => rfl
  | some j => cases j <;> first | rfl | simp [jsTruthy] at h

theorem parse_none_of_missing_toolInput (j : Json)
    (h : jsGet j "tool_input" = none) :
    parsePermissionRequestInput j = none := by
  unfold parsePermissionRequestInput
  rw [h]
  split <;> simp_all

/-- C10: `handlePreToolUse` denies a missing or otherwise falsy
`tool_name` with the fixed diagnostic, replaces a missing or falsy
`tool_input` by the empty record and proceeds with resolution, while
`handlePermissionRequest` denies a request whose `tool_input` is
absent. -/
theorem claimC10 (env : Env) (st : PermState)
    (rawA rawB rawC : Json) (s : String)
    (hA : jsTruthy (jsGet rawA "tool_name") = false)
    (hB1 : jsGet rawB "tool_name" = some (Json.str s))
    (hB2 : s ≠ "")
    (hB3 : jsTruthy (jsGet rawB "tool_input") = false)
    (hC : jsGet rawC "tool_input" = none) :
    handlePreToolUse env st rawA =
      (some ⟨⟨"PreToolUse", AllowDeny.deny, "Invalid PreToolUse input: missing tool_name"⟩⟩, st, []) ∧
    handlePreToolUse env st rawB =
      preToolUseOutcome
        (resolveDecision env st s [] (strField rawB "cwd") (strField rawB "session_id")) ∧
    (handlePermissionRequest env st rawC).1 =
      some (createPermissionDenyResponse "Invalid permission request input") := by
  refine ⟨?_, ?_, ?_⟩
  · simp [handlePreToolUse, hA]
  · have ht : jsTruthy (some (Json.str s)) = true := by simp [jsTruthy, hB2]
    simp [handlePreToolUse, hB1, ht, jsStringValue, jsToToolInput_falsy _ hB3]
  · rw [handlePermissionRequest_invalid env st rawC
      (parse_none_of_missing_toolInput rawC hC)]

/-- C10 witness: an input with no `tool_name` is denied with the fixed
diagnostic and an unchanged state. -/
theorem claimC10_witness :
    handlePreToolUse envUnknown stChecked (Json.obj []) =
      (some ⟨⟨"PreToolUse", AllowDeny.deny, "Invalid PreToolUse input: missing tool_name"⟩⟩,
       stChecked, []) :=
  (claimC10 envUnknown stChecked (Json.obj [])
    (Json.obj [("tool_name", Json.str "Bash")])
    (Json.obj [("tool_name", Json.str "Bash")]) "Bash"
    rfl rfl (by decide) rfl rfl).1

end CcApprove
